import Mathlib

/-!
Verification development for the MICROPLATE-AI vision-capture service
(`app/services/camera_service.py`, `app/core/websocket_manager.py`,
`app/api/routes/capture.py`).

The Python code is shallowly embedded: each method becomes a pure Lean
function over an explicit service state, with all external effects
(camera grabs, JPEG encoding, filesystem writes, clocks, raised
exceptions) supplied by an explicit environment record.  Times are
natural numbers (seconds-since-epoch style) except in the MJPEG
throttling model, where rational numbers model the fractional
`1/max_fps` interval.
-/

namespace VisionCapture

/-- A decoded frame: an abstract pixel-buffer token plus its shape
(`frame.shape[:2]` is `(height, width)` in the source). -/
structure Frame where
  data : Nat
  height : Nat
  width : Nat
deriving DecidableEq, Repr

/-- One value of the `_image_cache` ordered map: the dict built at
`camera_service.py` lines 299–305 (`bytes`, `size`, `width`, `height`,
`captured_at`).  The byte payload is abstracted to a token. -/
structure CacheEntry where
  bytes : Nat
  size : Nat
  width : Nat
  height : Nat
  captured_at : Nat
deriving DecidableEq, Repr

/-- The `_capture_stats` dictionary of `CameraService.__init__`. -/
structure CaptureStats where
  total_captures : Nat
  successful_captures : Nat
  failed_captures : Nat
  capture_times : List Nat
deriving DecidableEq, Repr

/-- The `ImageData` schema populated at `camera_service.py` lines 314–322. -/
structure ImageData where
  filename : String
  file_path : String
  file_size : Nat
  width : Nat
  height : Nat
  format : String
  captured_at : Nat
deriving DecidableEq, Repr

/-- State of a `CameraService` instance, together with a model of the
capture directory's contents (`diskFiles`: filename with its mtime), which
the service reads and writes through `cv2.imwrite`, `Path.glob`,
`Path.unlink` and `Path.exists`.  The camera handle is kept only as
present/absent (`self.camera is None`). -/
structure ServiceState where
  camera : Option Unit
  is_initialized : Bool
  is_capturing : Bool
  is_streaming : Bool
  persist_images : Bool
  in_memory_limit : Nat
  capture_dir : String
  image_cache : List (String × CacheEntry)
  capture_stats : CaptureStats
  last_capture_time : Option Nat
  diskFiles : List (String × Nat)
deriving DecidableEq, Repr

/-- The tuple `(success, image_data, error_message)` returned by
`CameraService.capture_image`. -/
structure CaptureReturn where
  success : Bool
  image : Option ImageData
  error : Option String
deriving DecidableEq, Repr

/-- Outcome of the camera grab call (`camera.read()` / `GrabOne` /
`RetrieveResult`): a frame, a clean failure (`ret == False` or
`GrabSucceeded() == False`), or a raised exception. -/
inductive GrabResult where
  | ok (frame : Frame)
  | failed
  | raised (msg : String)
deriving DecidableEq, Repr

/-- Camera backend selected by `settings.CAMERA_BACKEND`. -/
inductive Backend where
  | opencv
  | pylon
deriving DecidableEq, Repr

/-- Environment of one `capture_image` call: everything the method reads
from the outside world.  `persist_exn` models an exception raised during
the persist/stat phase, which the method's outer `except` clause catches. -/
structure CaptureEnv where
  grab : GrabResult
  isGrabbing : Bool
  ts_str : String
  timestamp : Nat
  elapsed : Nat
  resize_exn : Bool
  write_ok : Bool
  disk_file_size : Nat
  encode_ok : Bool
  enc_bytes : Nat
  enc_size : Nat
  persist_exn : Option String
deriving DecidableEq, Repr

/-- Python truthiness of an optional integer setting (`None` and `0` are
falsy). -/
def pyTruthy : Option Nat → Bool
  | none => false
  | some n => n != 0

/-- Filename generation of `camera_service.py` lines 266–271. -/
def makeFilename (sample_no : String) (submission_no : Option String)
    (ts_str : String) : String :=
  match submission_no with
  | some sub => "capture_" ++ sample_no ++ "_" ++ sub ++ "_" ++ ts_str ++ ".jpg"
  | none => "capture_" ++ sample_no ++ "_" ++ ts_str ++ ".jpg"

/-- Output dimensions of the capture-path resize (`camera_service.py`
lines 257–264): the frame is resized to exactly
`(CAPTURE_RESIZE_WIDTH, CAPTURE_RESIZE_HEIGHT)` when BOTH settings are
truthy, and is left unchanged otherwise. -/
def captureResizeDims (w h : Nat) (rw rh : Option Nat) : Nat × Nat :=
  if pyTruthy rw && pyTruthy rh then (rw.getD 0, rh.getD 0) else (w, h)

/-- Apply the capture-path resize to a frame; a resize exception is
caught at lines 263–264 and the original frame is used. -/
def captureResizeFrame (f : Frame) (rw rh : Option Nat) (resize_exn : Bool) :
    Frame :=
  if resize_exn then f
  else
    let d := captureResizeDims f.width f.height rw rh
    { f with width := d.1, height := d.2 }

/-- How the grab step of `capture_image` concludes: a frame, a typed
failure return (which clears `is_capturing` on the spot, lines 225, 238,
249 and 254), or an exception that escapes to the outer handler. -/
inductive GrabStep where
  | ok (frame : Frame)
  | typedFail (msg : String)
  | exn (msg : String)
deriving DecidableEq, Repr

/-- The grab step of `capture_image` (lines 219–255).  On the pylon
backend a raised exception is caught locally and converted into a typed
`Basler capture error` return; on the OpenCV backend `camera.read()` has
no local handler, so an exception propagates to the outer handler. -/
def grabStep (backend : Backend) (env : CaptureEnv) : GrabStep :=
  match backend with
  | .pylon =>
      match env.grab with
      | .ok f => .ok f
      | .failed =>
          if env.isGrabbing then
            .typedFail "Failed to retrieve image from Basler camera while streaming"
          else
            .typedFail "Failed to grab image from Basler camera"
      | .raised m => .typedFail ("Basler capture error: " ++ m)
  | .opencv =>
      match env.grab with
      | .ok f => .ok f
      | .failed => .typedFail "Failed to capture frame from camera"
      | .raised m => .exn m

/-- Model of `OrderedDict.__setitem__`: replace in place when the key exists,
append at the most-recently-used end when it does not. -/
def od_set (cache : List (String × CacheEntry)) (k : String) (v : CacheEntry) :
    List (String × CacheEntry) :=
  if cache.any (fun p => p.1 == k) then
    cache.map (fun p => if p.1 == k then (k, v) else p)
  else cache ++ [(k, v)]

/-- Model of `OrderedDict.move_to_end(k)`: move the entry for `k` to the
most-recently-used end. -/
def od_move_to_end (cache : List (String × CacheEntry)) (k : String) :
    List (String × CacheEntry) :=
  match cache.find? (fun p => p.1 == k) with
  | some e => cache.filter (fun p => p.1 != k) ++ [e]
  | none => cache

/-- The trim loop of `camera_service.py` lines 309–311:
`while len(cache) > limit: cache.popitem(last=False)` — pop entries from
the least-recently-used front until the size bound holds. -/
def od_trim (cache : List (String × CacheEntry)) (limit : Nat) :
    List (String × CacheEntry) :=
  if limit < cache.length then od_trim cache.tail limit else cache
termination_by cache.length
decreasing_by
  simp only [List.length_tail]
  omega

/-- The whole memory-mode insertion of `capture_image` (lines 299–311):
set the key, move it to the most-recently-used end, then trim to the
capacity limit. -/
def cache_insert (cache : List (String × CacheEntry)) (k : String)
    (v : CacheEntry) (limit : Nat) : List (String × CacheEntry) :=
  od_trim (od_move_to_end (od_set cache k v) k) limit

/-- Model of `cv2.imwrite`: record the written file (with the current time
as its mtime) in the directory listing, replacing an existing entry of
the same name. -/
def disk_write (files : List (String × Nat)) (name : String) (mtime : Nat) :
    List (String × Nat) :=
  if files.any (fun p => p.1 == name) then
    files.map (fun p => if p.1 == name then (name, mtime) else p)
  else files ++ [(name, mtime)]

/-- The success-path statistics update of `capture_image`
(lines 325–332): bump total and successful counters, append the capture
duration, and keep only the last 100 durations. -/
def stats_on_success (st : CaptureStats) (elapsed : Nat) : CaptureStats :=
  let ts := st.capture_times ++ [elapsed]
  { st with
    total_captures := st.total_captures + 1
    successful_captures := st.successful_captures + 1
    capture_times := if 100 < ts.length then ts.drop (ts.length - 100) else ts }

/-- The exception handler of `capture_image` (lines 340–343): bump the
failed-capture counter and return `(False, None, str(e))`. -/
def stats_on_exception (st : CaptureStats) : CaptureStats :=
  { st with failed_captures := st.failed_captures + 1 }

/-- The body of `capture_image`'s `try`/`except` (lines 215–343), run
with `is_capturing` already set.  Typed failure returns clear
`is_capturing` explicitly, as the source does before each early
`return`; the exception handler leaves it to the `finally` clause. -/
def capture_body (s : ServiceState) (backend : Backend) (env : CaptureEnv)
    (sample_no : String) (submission_no : Option String)
    (rw rh : Option Nat) : CaptureReturn × ServiceState :=
  match grabStep backend env with
  | .typedFail msg =>
      (⟨false, none, some msg⟩, { s with is_capturing := false })
  | .exn msg =>
      (⟨false, none, some msg⟩,
       { s with capture_stats := stats_on_exception s.capture_stats })
  | .ok frame0 =>
      let frame := captureResizeFrame frame0 rw rh env.resize_exn
      let filename := makeFilename sample_no submission_no env.ts_str
      match env.persist_exn with
      | some msg =>
          (⟨false, none, some msg⟩,
           { s with capture_stats := stats_on_exception s.capture_stats })
      | none =>
          if s.persist_images then
            if env.write_ok then
              let img : ImageData :=
                { filename := filename
                  file_path := s.capture_dir ++ "/" ++ filename
                  file_size := env.disk_file_size
                  width := frame.width
                  height := frame.height
                  format := "JPEG"
                  captured_at := env.timestamp }
              (⟨true, some img, none⟩,
               { s with
                 diskFiles := disk_write s.diskFiles filename env.timestamp
                 capture_stats := stats_on_success s.capture_stats env.elapsed
                 last_capture_time := some env.timestamp })
            else
              (⟨false, none, some "Failed to save image"⟩,
               { s with is_capturing := false })
          else
            if env.encode_ok then
              let entry : CacheEntry :=
                { bytes := env.enc_bytes
                  size := env.enc_size
                  width := frame.width
                  height := frame.height
                  captured_at := env.timestamp }
              let img : ImageData :=
                { filename := filename
                  file_path := filename
                  file_size := env.enc_size
                  width := frame.width
                  height := frame.height
                  format := "JPEG"
                  captured_at := env.timestamp }
              (⟨true, some img, none⟩,
               { s with
                 image_cache := cache_insert s.image_cache filename entry s.in_memory_limit
                 capture_stats := stats_on_success s.capture_stats env.elapsed
                 last_capture_time := some env.timestamp })
            else
              (⟨false, none, some "Failed to encode image"⟩,
               { s with is_capturing := false })

/-- Model of `CameraService.capture_image` (lines 187–346).  The two precondition
checks return before any state change; otherwise `is_capturing` is set,
the body runs, and the `finally` clause (line 346) clears `is_capturing`
on every exit path. -/
def capture_image (s : ServiceState) (backend : Backend) (env : CaptureEnv)
    (sample_no : String) (submission_no : Option String)
    (rw rh : Option Nat) : CaptureReturn × ServiceState :=
  if s.is_initialized = false ∨ s.camera = none then
    (⟨false, none, some "Camera not initialized"⟩, s)
  else if s.is_capturing = true then
    (⟨false, none, some "Capture already in progress"⟩, s)
  else
    let s1 : ServiceState := { s with is_capturing := true }
    let r := capture_body s1 backend env sample_no submission_no rw rh
    (r.1, { r.2 with is_capturing := false })

/-- The deletion loop of `CameraService.cleanup_captures` in disk mode
(lines 429–432): walk the directory listing, unlink each file whose
mtime is below the cutoff, and count the deletions.  Returns the
remaining listing and the count. -/
def cleanup_loop : List (String × Nat) → Nat → List (String × Nat) × Nat
  | [], _ => ([], 0)
  | f :: rest, cutoff =>
      let r := cleanup_loop rest cutoff
      if f.2 < cutoff then (r.1, r.2 + 1) else (f :: r.1, r.2)

/-- Model of `CameraService.cleanup_captures` (lines 411–446): in disk mode,
delete files older than `now - max_age_hours * 3600` and return the
count; in memory mode, drop cache entries captured before the cutoff and
return how many were dropped.  Returns the count and the new state. -/
def cleanup_captures (s : ServiceState) (now : Nat) (max_age_hours : Nat) :
    Nat × ServiceState :=
  if s.persist_images then
    let cutoff := now - max_age_hours * 3600
    let r := cleanup_loop s.diskFiles cutoff
    (r.2, { s with diskFiles := r.1 })
  else
    let cutoff := now - max_age_hours * 3600
    let keys_to_remove :=
      (s.image_cache.filter (fun p => p.2.captured_at < cutoff)).map (fun p => p.1)
    (keys_to_remove.length,
     { s with image_cache :=
        s.image_cache.filter (fun p => !(p.2.captured_at < cutoff)) })

/-- The resource returned by `get_image_resource`: a file handle or an
in-memory byte buffer. -/
inductive ImageResource where
  | file (path : String)
  | memory (bytes : Nat)
deriving DecidableEq, Repr

/-- Model of `CameraService.get_image_resource` (lines 464–474): disk mode checks
the capture directory, memory mode does a plain `dict.get` on the cache.
The method mutates nothing, so the returned state is the input state. -/
def get_image_resource (s : ServiceState) (filename : String) :
    Option ImageResource × ServiceState :=
  if s.persist_images then
    if s.diskFiles.any (fun p => p.1 == filename) then
      (some (.file (s.capture_dir ++ "/" ++ filename)), s)
    else (none, s)
  else
    match s.image_cache.find? (fun p => p.1 == filename) with
    | some e => (some (.memory e.2.bytes), s)
    | none => (none, s)

/-- Response of the `GET /image/{filename}` route. -/
inductive ImageRouteResponse where
  | fileResponse (path : String)
  | notFound
deriving DecidableEq, Repr

/-- Model of the route `get_captured_image` in `app/api/routes/capture.py` (lines 82–109):
build `capture_dir / filename`, 404 unless that path exists on disk,
otherwise serve the file.  The route never consults the in-memory
cache. -/
def get_captured_image (s : ServiceState) (filename : String) :
    ImageRouteResponse :=
  if s.diskFiles.any (fun p => p.1 == filename) then
    .fileResponse (s.capture_dir ++ "/" ++ filename)
  else .notFound

/-!  Connection hub (`app/core/websocket_manager.py`). -/

/-- A WebSocket connection as the broadcast path observes it: an
identity, whether `client_state == CONNECTED`, and whether `send_text`
raises on this connection. -/
structure Conn where
  id : Nat
  connected : Bool
  sendFails : Bool
deriving DecidableEq, Repr

/-- Model of `WebSocketManager.disconnect` (lines 52–65): remove the connection
from the active list if present (idempotent). -/
def ws_disconnect (active : List Conn) (c : Conn) : List Conn :=
  if c ∈ active then active.erase c else active

/-- Model of `WebSocketManager.send_personal_message` (lines 67–80): send only
when the client state is CONNECTED; a raised send error is caught
locally and turns into `disconnect` of that one connection.  Returns the
new active list and whether the message was delivered to `c`. -/
def send_personal_message (active : List Conn) (c : Conn) :
    List Conn × Bool :=
  if c.connected then
    if c.sendFails then (ws_disconnect active c, false)
    else (active, true)
  else (active, false)

/-- The broadcast loop (lines 95–96) over a snapshot of the connection
list: deliver to each snapshot member in turn, threading the active list
through the per-connection sends.  Returns the final active list and the
connections that received the message, in order. -/
def broadcast_loop (active : List Conn) : List Conn → List Conn × List Conn
  | [] => (active, [])
  | c :: rest =>
      let step := send_personal_message active c
      let r := broadcast_loop step.1 rest
      (r.1, if step.2 then c :: r.2 else r.2)

/-- Model of `WebSocketManager.broadcast` (lines 82–96): return immediately when
there are no connections, otherwise iterate over a copy (snapshot) of
`active_connections`. -/
def broadcast (active : List Conn) : List Conn × List Conn :=
  if active = [] then (active, []) else broadcast_loop active active

/-!  MJPEG streaming (`CameraService.mjpeg_frame_iterator`). -/

/-- The `min_interval` computation (lines 486–488): set only when `max_fps`
is given and positive. -/
def min_interval (max_fps : Option Nat) : Option ℚ :=
  match max_fps with
  | some f => if 0 < f then some (1 / (f : ℚ)) else none
  | none => none

/-- Target dimensions of the streaming-path resize, identical on both
backends (lines 515–525 and 548–558): exact when both dimensions are
truthy, aspect-preserving (via `int(dim * scale)`, modelled by floor
division) when exactly one is. -/
def streamResizeDims (w h : Nat) (ow oh : Option Nat) : Nat × Nat :=
  if pyTruthy ow || pyTruthy oh then
    if pyTruthy ow && pyTruthy oh then (ow.getD 0, oh.getD 0)
    else if pyTruthy ow then (ow.getD 0, h * ow.getD 0 / w)
    else (w * oh.getD 0 / h, oh.getD 0)
  else (w, h)

/-- Observable outcome of one streaming-loop iteration: whether a frame
was yielded, at what time, and the updated `last_sent`. -/
structure ThrottleStep where
  emitted : Bool
  emitTime : ℚ
  lastSent : ℚ
deriving DecidableEq, Repr

/-- One iteration of the pylon streaming loop (lines 505–539) for a
frame that arrives at time `now`: when a minimum interval is set and too
little time has passed since the last emission, `continue` DROPS the
frame; otherwise encode and, if encoding succeeds, yield and update
`last_sent`. -/
def mjpeg_step_pylon (mi : Option ℚ) (last_sent now : ℚ)
    (grab_ok encode_ok : Bool) : ThrottleStep :=
  if !grab_ok then ⟨false, 0, last_sent⟩
  else
    match mi with
    | some m =>
        if now - last_sent < m then ⟨false, 0, last_sent⟩
        else if encode_ok then ⟨true, now, now⟩
        else ⟨false, 0, last_sent⟩
    | none =>
        if encode_ok then ⟨true, now, now⟩ else ⟨false, 0, last_sent⟩

/-- One iteration of the OpenCV streaming loop (lines 542–567) for a
frame read at time `now`: when a minimum interval is set and too little
time has passed, the loop SLEEPS for the remaining
`min_interval - (now - last_sent)` and then still encodes and yields the
frame (at time `last_sent + m`); the frame is not dropped. -/
def mjpeg_step_opencv (mi : Option ℚ) (last_sent now : ℚ)
    (grab_ok encode_ok : Bool) : ThrottleStep :=
  if !grab_ok then ⟨false, 0, last_sent⟩
  else
    match mi with
    | some m =>
        if now - last_sent < m then
          if encode_ok then ⟨true, last_sent + m, last_sent + m⟩
          else ⟨false, 0, last_sent⟩
        else if encode_ok then ⟨true, now, now⟩
        else ⟨false, 0, last_sent⟩
    | none =>
        if encode_ok then ⟨true, now, now⟩ else ⟨false, 0, last_sent⟩

/-!  Concrete sample states and environments, used by several witnesses. -/

/-- A ready service in memory-persistence mode with an empty cache. -/
def readyMemState : ServiceState :=
  { camera := some ()
    is_initialized := true
    is_capturing := false
    is_streaming := false
    persist_images := false
    in_memory_limit := 10
    capture_dir := "captures"
    image_cache := []
    capture_stats := ⟨0, 0, 0, []⟩
    last_capture_time := none
    diskFiles := [] }

/-- A ready service in disk-persistence mode with an empty directory. -/
def readyDiskState : ServiceState :=
  { readyMemState with persist_images := true }

/-- An environment in which every external step succeeds, producing a
640×480 frame. -/
def happyEnv : CaptureEnv :=
  { grab := .ok ⟨0, 480, 640⟩
    isGrabbing := false
    ts_str := "20260101_000000"
    timestamp := 1000
    elapsed := 1
    resize_exn := false
    write_ok := true
    disk_file_size := 100
    encode_ok := true
    enc_bytes := 7
    enc_size := 50
    persist_exn := none }

/-! ## Ordered-map lemmas for the in-memory image cache -/

/-- Replacing the value of every key-`k` entry leaves the key-`k`-free
part of the map unchanged. -/
theorem map_set_filter_ne (t : List (String × CacheEntry)) (k : String)
    (v : CacheEntry) :
    (t.map (fun p => if p.1 == k then (k, v) else p)).filter (fun p => p.1 != k)
      = t.filter (fun p => p.1 != k) := by
  induction t with
  | nil => rfl
  | cons a t ih =>
      by_cases h : a.1 = k
      · simp [h]
        simpa using ih
      · simp [h]
        simpa using ih

/-- After the in-place update, the first entry keyed `k` holds the new
value. -/
theorem find?_map_set (t : List (String × CacheEntry)) (k : String)
    (v : CacheEntry) (h : t.any (fun p => p.1 == k) = true) :
    (t.map (fun p => if p.1 == k then (k, v) else p)).find? (fun p => p.1 == k)
      = some (k, v) := by
  induction t with
  | nil => simp at h
  | cons a t ih =>
      by_cases ha : a.1 = k
      · simp [ha]
      · have h' : t.any (fun p => p.1 == k) = true := by
          simp only [List.any_cons] at h
          simpa [ha] using h
        rw [List.map_cons]
        have hfa : (if (a.1 == k) = true then (k, v) else a) = a := by simp [ha]
        rw [hfa, List.find?_cons_of_neg _ (by simpa using ha)]
        exact ih h'

/-- Lemma: `od_set` followed by `od_move_to_end` on the same key: all old
entries for the key disappear and the fresh entry lands at the
most-recently-used end. -/
theorem od_set_move_eq (cache : List (String × CacheEntry)) (k : String)
    (v : CacheEntry) :
    od_move_to_end (od_set cache k v) k
      = cache.filter (fun p => p.1 != k) ++ [(k, v)] := by
  unfold od_set od_move_to_end
  by_cases h : cache.any (fun p => p.1 == k) = true
  · rw [if_pos h, find?_map_set cache k v h, map_set_filter_ne]
  · rw [if_neg h]
    have hall : ∀ p ∈ cache, ¬(p.1 == k) = true := by
      intro p hp hpk
      exact h (List.any_eq_true.mpr ⟨p, hp, hpk⟩)
    have h1 : cache.find? (fun p => p.1 == k) = none := List.find?_eq_none.mpr hall
    rw [List.find?_append, h1]
    have hfk : List.find? (fun p => p.1 == k) [(k, v)] = some (k, v) := by simp
    rw [Option.none_or, hfk]
    have hfilter : cache.filter (fun p => p.1 != k) = cache :=
      List.filter_eq_self.mpr (fun p hp => by simpa using hall p hp)
    simp [List.filter_append, hfilter]

/-- The trim loop pops from the least-recently-used front only: it is a
`drop` from the front down to the capacity. -/
theorem od_trim_eq_drop (l : List (String × CacheEntry)) (n : Nat) :
    od_trim l n = l.drop (l.length - n) := by
  induction l with
  | nil => rw [od_trim]; simp
  | cons a t ih =>
      rw [od_trim]
      simp only [List.tail_cons]
      by_cases h : n < (a :: t).length
      · rw [if_pos h, ih]
        have hl : (a :: t).length - n = (t.length - n) + 1 := by
          simp only [List.length_cons] at h ⊢
          omega
        rw [hl, List.drop_succ_cons]
      · rw [if_neg h]
        have hl : (a :: t).length - n = 0 := by
          simp only [List.length_cons] at h ⊢
          omega
        rw [hl, List.drop_zero]

/-- Claim C3: In memory mode every insertion leaves the cache within the
capacity `N`, always places the inserted key at the most-recently-used
end, and — for a fresh key — evicts nothing while under capacity and
evicts exactly the least-recently-used (front) entry when the cache is
at capacity. -/
theorem cache_insert_lru (cache : List (String × CacheEntry)) (k : String)
    (v : CacheEntry) (N : Nat) (hN : 1 ≤ N) :
    (cache_insert cache k v N).length ≤ N ∧
    (cache_insert cache k v N).getLast? = some (k, v) ∧
    ((∀ p ∈ cache, p.1 ≠ k) →
      (cache.length < N → cache_insert cache k v N = cache ++ [(k, v)]) ∧
      (cache.length = N → cache_insert cache k v N = cache.tail ++ [(k, v)])) := by
  have hbase : cache_insert cache k v N
      = ((cache.filter (fun p => p.1 != k)) ++ [(k, v)]).drop
          ((cache.filter (fun p => p.1 != k)).length + 1 - N) := by
    unfold cache_insert
    rw [od_set_move_eq, od_trim_eq_drop]
    simp
  refine ⟨?_, ?_, ?_⟩
  · rw [hbase, List.length_drop]
    simp only [List.length_append, List.length_cons, List.length_nil]
    omega
  · rw [hbase]
    have hle : (cache.filter (fun p => p.1 != k)).length + 1 - N
        ≤ (cache.filter (fun p => p.1 != k)).length := by omega
    rw [List.drop_append_of_le_length hle, List.getLast?_concat]
  · intro hfresh
    have hfilter : cache.filter (fun p => p.1 != k) = cache :=
      List.filter_eq_self.mpr (fun p hp => by simpa using hfresh p hp)
    constructor
    · intro hlt
      rw [hbase, hfilter]
      have : cache.length + 1 - N = 0 := by omega
      rw [this, List.drop_zero]
    · intro heq
      rw [hbase, hfilter, heq]
      have h1 : N + 1 - N = 1 := by omega
      rw [h1, List.drop_append_of_le_length (by omega), List.drop_one]

/-- A concrete cache entry for witnesses. -/
def entryA : CacheEntry := ⟨1, 10, 640, 480, 100⟩

/-- Another concrete cache entry for witnesses. -/
def entryB : CacheEntry := ⟨2, 20, 640, 480, 200⟩

/-- Witness for C3: inserting a third key into a two-entry cache of
capacity two evicts exactly the front (least-recently-used) entry. -/
theorem cache_insert_lru_witness :
    cache_insert [("a", entryA), ("b", entryB)] "c" entryA 2
      = [("b", entryB), ("c", entryA)] := by
  have h := ((cache_insert_lru [("a", entryA), ("b", entryB)] "c" entryA 2
      (by decide)).2.2 (by decide)).2 rfl
  simpa using h

/-- Claim C1: A `capture_image` call on an uninitialized service (or one
with no camera handle) returns the `Camera not initialized` error, and a
call while a capture is in flight returns the `Capture already in
progress` error; in both cases the call fails with no image and the
service state — cache, statistics, directory — is left exactly as it
was, for every environment (so no frame is grabbed and no image is
produced). -/
theorem capture_image_precondition_errors (s : ServiceState) (backend : Backend)
    (env : CaptureEnv) (sample_no : String) (submission_no : Option String)
    (rw rh : Option Nat)
    (h : s.is_initialized = false ∨ s.camera = none ∨ s.is_capturing = true) :
    (capture_image s backend env sample_no submission_no rw rh).1.success = false ∧
    (capture_image s backend env sample_no submission_no rw rh).1.image = none ∧
    (capture_image s backend env sample_no submission_no rw rh).2 = s ∧
    ((s.is_initialized = false ∨ s.camera = none) →
      (capture_image s backend env sample_no submission_no rw rh).1.error =
        some "Camera not initialized") ∧
    (s.is_initialized = true → s.camera ≠ none →
      (capture_image s backend env sample_no submission_no rw rh).1.error =
        some "Capture already in progress") := by
  unfold capture_image
  by_cases hpre : s.is_initialized = false ∨ s.camera = none
  · simp [hpre]
    intro h1
    rcases hpre with h | h
    · rw [h1] at h; exact absurd h (by simp)
    · exact h
  · have hcap : s.is_capturing = true := by tauto
    simp [hpre, hcap]

/-- Witness for C1 at a concrete uninitialized state. -/
theorem capture_image_precondition_errors_witness :
    (capture_image { readyMemState with is_initialized := false } .opencv happyEnv
      "S1" none none none).1.error = some "Camera not initialized" :=
  ((capture_image_precondition_errors
      { readyMemState with is_initialized := false } .opencv happyEnv
      "S1" none none none (Or.inl rfl)).2.2.2.1 (Or.inl rfl))

/-- Claim C2: Once the precondition checks pass, `capture_image` always
returns with `is_capturing` reset to `false`: the `finally` clause runs
on the success path, on every typed failure return (which also clears
the flag itself first) and when an exception is raised, for every
environment. -/
theorem capture_image_resets_is_capturing (s : ServiceState) (backend : Backend)
    (env : CaptureEnv) (sample_no : String) (submission_no : Option String)
    (rw rh : Option Nat)
    (h1 : s.is_initialized = true) (h2 : s.camera ≠ none)
    (h3 : s.is_capturing = false) :
    ((capture_image s backend env sample_no submission_no rw rh).2).is_capturing
      = false := by
  unfold capture_image
  simp [h1, h2, h3]

/-- Witness for C2 at a concrete ready state with a successful
environment. -/
theorem capture_image_resets_is_capturing_witness :
    ((capture_image readyMemState .opencv happyEnv "S1" none none none).2).is_capturing
      = false :=
  capture_image_resets_is_capturing readyMemState .opencv happyEnv "S1" none none
    none rfl (by decide) rfl

/-- An environment whose camera grab fails cleanly (`ret == False`). -/
def grabFailEnv : CaptureEnv := { happyEnv with grab := .failed }

/-- An environment whose camera grab raises an exception. -/
def grabRaiseEnv : CaptureEnv := { happyEnv with grab := .raised "boom" }

/-- Claim C4, counterexample: A grab failure on a ready service returns the
typed `Failed to capture frame from camera` error but is NOT counted in
the capture statistics: `failed_captures` stays at its old value (0), so
the claim that every failure "is counted in the capture statistics as a
failed capture" is false on the code. -/
theorem capture_image_failure_not_counted :
    (capture_image readyMemState .opencv grabFailEnv "S1" none none none).1.success
      = false ∧
    (capture_image readyMemState .opencv grabFailEnv "S1" none none none).1.error
      = some "Failed to capture frame from camera" ∧
    ((capture_image readyMemState .opencv grabFailEnv "S1" none
        none none).2).capture_stats.failed_captures = 0 := by
  refine ⟨rfl, rfl, rfl⟩

/-- Claim C4, amended: Every failing `capture_image` call returns a typed
error message, but only the exception paths (a raised camera-read
exception on the OpenCV backend, or a persist-phase exception) increment
`failed_captures`; the typed early returns — grab failure, the pylon
backend's caught grab exception, encode failure, save failure — leave
the capture statistics entirely unchanged. -/
theorem capture_image_failure_accounting (s : ServiceState) (backend : Backend)
    (env : CaptureEnv) (sample_no : String) (submission_no : Option String)
    (rw rh : Option Nat)
    (h1 : s.is_initialized = true) (h2 : s.camera ≠ none)
    (h3 : s.is_capturing = false) :
    ((capture_image s backend env sample_no submission_no rw rh).1.success = false →
      (capture_image s backend env sample_no submission_no rw rh).1.error ≠ none) ∧
    (∀ m, env.grab = .raised m → backend = .opencv →
      ((capture_image s backend env sample_no submission_no rw rh).2).capture_stats
        = stats_on_exception s.capture_stats) ∧
    (∀ f m, env.grab = .ok f → env.persist_exn = some m →
      ((capture_image s backend env sample_no submission_no rw rh).2).capture_stats
        = stats_on_exception s.capture_stats) ∧
    (env.grab = .failed →
      ((capture_image s backend env sample_no submission_no rw rh).2).capture_stats
        = s.capture_stats) ∧
    (∀ m, env.grab = .raised m → backend = .pylon →
      (capture_image s backend env sample_no submission_no rw rh).1.error
        = some ("Basler capture error: " ++ m) ∧
      ((capture_image s backend env sample_no submission_no rw rh).2).capture_stats
        = s.capture_stats) ∧
    (∀ f, env.grab = .ok f → env.persist_exn = none → s.persist_images = false →
      env.encode_ok = false →
      (capture_image s backend env sample_no submission_no rw rh).1.error
        = some "Failed to encode image" ∧
      ((capture_image s backend env sample_no submission_no rw rh).2).capture_stats
        = s.capture_stats) ∧
    (∀ f, env.grab = .ok f → env.persist_exn = none → s.persist_images = true →
      env.write_ok = false →
      (capture_image s backend env sample_no submission_no rw rh).1.error
        = some "Failed to save image" ∧
      ((capture_image s backend env sample_no submission_no rw rh).2).capture_stats
        = s.capture_stats) := by
  have hpre : ¬(s.is_initialized = false ∨ s.camera = none) := by
    rintro (h | h)
    · rw [h1] at h; cases h
    · exact h2 h
  have hcap : ¬(s.is_capturing = true) := by rw [h3]; simp
  unfold capture_image
  rw [if_neg hpre, if_neg hcap]
  dsimp only
  refine ⟨?_, ?_, ?_, ?_, ?_, ?_, ?_⟩
  · unfold capture_body
    rcases grabStep backend env with f | m | m <;> dsimp only
    · rcases env.persist_exn with _ | m <;> dsimp only
      · split_ifs <;> simp
      · simp
    · simp
    · simp
  · intro m hgb hb
    subst hb
    unfold capture_body
    simp [grabStep, hgb]
  · intro f m hgb hpe
    unfold capture_body
    rcases backend <;> simp [grabStep, hgb, hpe]
  · intro hgb
    unfold capture_body
    rcases backend <;> simp [grabStep, hgb]
    split_ifs <;> rfl
  · intro m hgb hb
    subst hb
    unfold capture_body
    simp [grabStep, hgb]
  · intro f hgb hpe hp henc
    unfold capture_body
    rcases backend <;> simp [grabStep, hgb, hpe, hp, henc]
  · intro f hgb hpe hp hwr
    unfold capture_body
    rcases backend <;> simp [grabStep, hgb, hpe, hp, hwr]

/-- Witness for the amended C4: a raised grab exception on a ready
OpenCV-backend service bumps `failed_captures` from 0 to 1. -/
theorem capture_image_failure_accounting_witness :
    ((capture_image readyMemState .opencv grabRaiseEnv "S1" none
        none none).2).capture_stats.failed_captures = 1 := by
  have h := (capture_image_failure_accounting readyMemState .opencv grabRaiseEnv
      "S1" none none none rfl (by decide) rfl).2.1 "boom" rfl rfl
  rw [h]
  rfl

/-- Claim C5, counterexample: On the general (OpenCV) backend with
`max_fps = 1`, a frame read before the `1/max_fps` interval has elapsed
(here: immediately, at `now = last_sent = 0`) is NOT discarded: the loop
sleeps and then emits it at `last_sent + 1`.  This falsifies the claim
that early frames are dropped, never delayed, on both backends. -/
theorem mjpeg_opencv_early_frame_not_dropped :
    (mjpeg_step_opencv (min_interval (some 1)) 0 0 true true).emitted = true ∧
    (mjpeg_step_opencv (min_interval (some 1)) 0 0 true true).emitTime = 1 := by
  simp [mjpeg_step_opencv, min_interval]

/-- Claim C5, amended: With a maximum frame rate set (minimum interval
`m = 1/max_fps > 0`): the industrial (pylon) backend DROPS every frame
arriving before `m` has elapsed and emits on-arrival otherwise, while
the general (OpenCV) backend never drops an early frame — it sleeps and
emits it at `last_sent + m`.  On both backends every emitted frame is at
least `m` after the previous emission. -/
theorem mjpeg_throttle_spacing (m last_sent now : ℚ) (g e : Bool) :
    ((mjpeg_step_pylon (some m) last_sent now g e).emitted = true →
      m ≤ now - last_sent ∧
      (mjpeg_step_pylon (some m) last_sent now g e).emitTime = now) ∧
    (now - last_sent < m →
      (mjpeg_step_pylon (some m) last_sent now g e).emitted = false ∧
      (mjpeg_step_pylon (some m) last_sent now g e).lastSent = last_sent) ∧
    ((mjpeg_step_opencv (some m) last_sent now g e).emitted = true →
      m ≤ (mjpeg_step_opencv (some m) last_sent now g e).emitTime - last_sent) ∧
    (now - last_sent < m → g = true → e = true →
      (mjpeg_step_opencv (some m) last_sent now g e).emitted = true ∧
      (mjpeg_step_opencv (some m) last_sent now g e).emitTime = last_sent + m) := by
  refine ⟨?_, ?_, ?_, ?_⟩
  · intro he
    unfold mjpeg_step_pylon at he ⊢
    cases g with
    | false => simp at he
    | true =>
        cases e with
        | false =>
            by_cases hlt : now - last_sent < m <;> simp [hlt] at he
        | true =>
            by_cases hlt : now - last_sent < m
            · simp [hlt] at he
            · simp [hlt]
              exact not_lt.mp hlt
  · intro hlt
    unfold mjpeg_step_pylon
    cases g <;> cases e <;> simp [hlt]
  · intro he
    unfold mjpeg_step_opencv at he ⊢
    cases g with
    | false => simp at he
    | true =>
        cases e with
        | false =>
            by_cases hlt : now - last_sent < m <;> simp [hlt] at he
        | true =>
            by_cases hlt : now - last_sent < m
            · simp [hlt]
            · simp [hlt]
              linarith [not_lt.mp hlt]
  · intro hlt hg he
    subst hg
    subst he
    unfold mjpeg_step_opencv
    simp [hlt]

/-- Witness for the amended C5 with `m = 1`, `last_sent = now = 0`: the
pylon step drops the early frame, the OpenCV step emits it at time 1. -/
theorem mjpeg_throttle_spacing_witness :
    (mjpeg_step_pylon (some 1) 0 0 true true).emitted = false ∧
    (mjpeg_step_opencv (some 1) 0 0 true true).emitTime = 0 + 1 := by
  have h := mjpeg_throttle_spacing 1 0 0 true true
  exact ⟨(h.2.1 (by simp)).1, (h.2.2.2 (by simp) rfl rfl).2⟩

/-- Claim C6, counterexample: In the one-shot capture path the resize at
lines 257–264 runs only when BOTH `CAPTURE_RESIZE_WIDTH` and
`CAPTURE_RESIZE_HEIGHT` are set: with only a width (320) configured, a
640×480 frame is left at 640×480 rather than resized aspect-preserving
to 320×240, falsifying the claim for the capture path. -/
theorem capture_resize_single_dim_ignored :
    captureResizeDims 640 480 (some 320) none = (640, 480) ∧
    captureResizeDims 640 480 (some 320) none ≠ (320, 240) := by
  refine ⟨rfl, by decide⟩

/-- Claim C6, amended: In the streaming path, resize is exact when both
output dimensions are given and aspect-preserving (within 1px floor
rounding) when exactly one is; in the one-shot capture path, the frame
is resized (exactly) only when both dimensions are configured, and keeps
its original size when only one is given. -/
theorem resize_rules (w h W H : Nat) (hw : 0 < w) (hh : 0 < h)
    (hW : W ≠ 0) (hH : H ≠ 0) :
    streamResizeDims w h (some W) (some H) = (W, H) ∧
    ((streamResizeDims w h (some W) none).1 = W ∧
      (streamResizeDims w h (some W) none).2 * w ≤ h * W ∧
      h * W < ((streamResizeDims w h (some W) none).2 + 1) * w) ∧
    ((streamResizeDims w h none (some H)).2 = H ∧
      (streamResizeDims w h none (some H)).1 * h ≤ w * H ∧
      w * H < ((streamResizeDims w h none (some H)).1 + 1) * h) ∧
    captureResizeDims w h (some W) (some H) = (W, H) ∧
    captureResizeDims w h (some W) none = (w, h) ∧
    captureResizeDims w h none (some H) = (w, h) := by
  have e1 : streamResizeDims w h (some W) (some H) = (W, H) := by
    simp [streamResizeDims, pyTruthy, hW, hH]
  have e2 : streamResizeDims w h (some W) none = (W, h * W / w) := by
    simp [streamResizeDims, pyTruthy, hW]
  have e3 : streamResizeDims w h none (some H) = (w * H / h, H) := by
    simp [streamResizeDims, pyTruthy, hH]
  have e4 : captureResizeDims w h (some W) (some H) = (W, H) := by
    simp [captureResizeDims, pyTruthy, hW, hH]
  have e5 : captureResizeDims w h (some W) none = (w, h) := by
    simp [captureResizeDims, pyTruthy]
  have e6 : captureResizeDims w h none (some H) = (w, h) := by
    simp [captureResizeDims, pyTruthy]
  refine ⟨e1, ⟨?_, ?_, ?_⟩, ⟨?_, ?_, ?_⟩, e4, e5, e6⟩
  · rw [e2]
  · rw [e2]
    exact Nat.div_mul_le_self (h * W) w
  · rw [e2]
    exact (Nat.div_lt_iff_lt_mul hw).mp (Nat.lt_succ_self _)
  · rw [e3]
  · rw [e3]
    exact Nat.div_mul_le_self (w * H) h
  · rw [e3]
    exact (Nat.div_lt_iff_lt_mul hh).mp (Nat.lt_succ_self _)

/-- Witness for the amended C6: a 640×480 frame with both dimensions
given streams at exactly 320×240, while the capture path with only a
width given keeps 640×480. -/
theorem resize_rules_witness :
    streamResizeDims 640 480 (some 320) (some 240) = (320, 240) ∧
    captureResizeDims 640 480 (some 320) none = (640, 480) := by
  have hr := resize_rules 640 480 320 240 (by decide) (by decide)
    (by decide) (by decide)
  exact ⟨hr.1, hr.2.2.2.2.1⟩

/-- The deletion loop deletes exactly the files strictly older than the
cutoff, keeps the rest in order, and returns the number deleted. -/
theorem cleanup_loop_filter (files : List (String × Nat)) (cutoff : Nat) :
    cleanup_loop files cutoff
      = (files.filter (fun f => decide (cutoff ≤ f.2)),
         (files.filter (fun f => decide (f.2 < cutoff))).length) := by
  induction files with
  | nil => rfl
  | cons a t ih =>
      unfold cleanup_loop
      rw [ih]
      by_cases h : a.2 < cutoff
      · simp [h, Nat.not_le.mpr h]
      · simp [h, Nat.le_of_not_lt h]

/-- Claim C7: In disk mode `cleanup_captures(h)` deletes exactly the
`.jpg` files whose mtime is strictly below `now - h·3600`, keeps every
file at or above the cutoff (in order, untouched), and returns exactly
the number of deleted files. -/
theorem cleanup_captures_disk_exact (s : ServiceState) (now hours : Nat)
    (hp : s.persist_images = true) :
    (cleanup_captures s now hours).2.diskFiles
      = s.diskFiles.filter (fun f => decide (now - hours * 3600 ≤ f.2)) ∧
    (cleanup_captures s now hours).1
      = (s.diskFiles.filter (fun f => decide (f.2 < now - hours * 3600))).length ∧
    ∀ f ∈ s.diskFiles, now - hours * 3600 ≤ f.2 →
      f ∈ (cleanup_captures s now hours).2.diskFiles := by
  unfold cleanup_captures
  rw [if_pos hp]
  dsimp only
  rw [cleanup_loop_filter]
  refine ⟨rfl, rfl, ?_⟩
  intro f hf hcut
  simp only [List.mem_filter]
  exact ⟨hf, by simpa using hcut⟩

/-- Witness for C7: with files of mtime 100 and 5000, `now = 7300` and a
one-hour horizon (cutoff 3700), exactly the old file is deleted and the
count is 1. -/
theorem cleanup_captures_disk_exact_witness :
    (cleanup_captures
        { readyDiskState with diskFiles := [("old.jpg", 100), ("new.jpg", 5000)] }
        7300 1).1 = 1 ∧
    (cleanup_captures
        { readyDiskState with diskFiles := [("old.jpg", 100), ("new.jpg", 5000)] }
        7300 1).2.diskFiles = [("new.jpg", 5000)] := by
  have hc := cleanup_captures_disk_exact
    { readyDiskState with diskFiles := [("old.jpg", 100), ("new.jpg", 5000)] }
    7300 1 rfl
  refine ⟨?_, ?_⟩
  · rw [hc.2.1]; rfl
  · rw [hc.1]; rfl

/-!  ## Broadcast lemmas -/

/-- Lemma: `disconnect` is `List.erase` (the membership guard only avoids the
error `list.remove` would raise on a missing element). -/
theorem ws_disconnect_eq_erase (active : List Conn) (c : Conn) :
    ws_disconnect active c = active.erase c := by
  unfold ws_disconnect
  by_cases h : c ∈ active
  · rw [if_pos h]
  · rw [if_neg h, List.erase_of_not_mem h]

/-- Who receives a broadcast depends only on the snapshot: exactly the
connected members whose send does not fail, regardless of the evolving
active list. -/
theorem broadcast_loop_delivered (snapshot : List Conn) :
    ∀ active, (broadcast_loop active snapshot).2
      = snapshot.filter (fun c => c.connected && !c.sendFails) := by
  induction snapshot with
  | nil => intro active; rfl
  | cons c rest ih =>
      intro active
      cases hc : c.connected with
      | false => simp [broadcast_loop, send_personal_message, hc, ih]
      | true =>
          cases hf : c.sendFails with
          | false => simp [broadcast_loop, send_personal_message, hc, hf, ih]
          | true => simp [broadcast_loop, send_personal_message, hc, hf, ih]

/-- The active list after the loop: each connected-but-failing snapshot
member has been erased, one at a time, in snapshot order. -/
theorem broadcast_loop_active (snapshot : List Conn) :
    ∀ active, (broadcast_loop active snapshot).1
      = (snapshot.filter (fun c => c.connected && c.sendFails)).foldl
          (fun acc c => acc.erase c) active := by
  induction snapshot with
  | nil => intro active; rfl
  | cons c rest ih =>
      intro active
      cases hc : c.connected with
      | false => simp [broadcast_loop, send_personal_message, hc, ih]
      | true =>
          cases hf : c.sendFails with
          | false => simp [broadcast_loop, send_personal_message, hc, hf, ih]
          | true =>
              simp [broadcast_loop, send_personal_message, hc, hf, ih,
                ws_disconnect_eq_erase]

/-- Erasing a list of elements all different from the head keeps the
head in place. -/
theorem foldl_erase_cons (a : Conn) (bs : List Conn)
    (h : ∀ b ∈ bs, b ≠ a) :
    ∀ t, bs.foldl (fun acc c => acc.erase c) (a :: t)
      = a :: bs.foldl (fun acc c => acc.erase c) t := by
  induction bs with
  | nil => intro t; rfl
  | cons b bs ih =>
      intro t
      simp only [List.foldl_cons]
      rw [List.erase_cons_tail
          (by simpa using (h b (List.mem_cons_self b bs)).symm)]
      exact ih (fun x hx => h x (List.mem_cons_of_mem b hx)) (t.erase b)

/-- On a duplicate-free list, erasing every element satisfying `p` keeps
exactly the elements not satisfying `p`. -/
theorem foldl_erase_filter (p : Conn → Bool) (l : List Conn)
    (hnd : l.Nodup) :
    (l.filter p).foldl (fun acc c => acc.erase c) l
      = l.filter (fun c => !p c) := by
  induction l with
  | nil => rfl
  | cons a t ih =>
      have hna : a ∉ t := (List.nodup_cons.mp hnd).1
      have hnt : t.Nodup := (List.nodup_cons.mp hnd).2
      cases hpa : p a with
      | true =>
          simp only [List.filter_cons, hpa, if_pos, List.foldl_cons,
            List.erase_cons_head]
          rw [ih hnt]
          simp [hpa]
      | false =>
          have hfilt : (a :: t).filter p = t.filter p := by simp [hpa]
          have hfilt2 : (a :: t).filter (fun c => !p c)
              = a :: t.filter (fun c => !p c) := by simp [hpa]
          rw [hfilt, hfilt2,
            foldl_erase_cons a (t.filter p)
              (fun b hb hba => hna (hba ▸ List.mem_of_mem_filter hb)),
            ih hnt]

/-- Claim C8: Broadcasting over distinct, connected channels: every
connection whose send succeeds receives the message even when other
connections' sends fail, and exactly the failing connections are removed
from the active set — a failure is caught locally and never aborts the
rest of the broadcast. -/
theorem broadcast_isolates_failures (active : List Conn)
    (hnd : active.Nodup) (hconn : ∀ c ∈ active, c.connected = true) :
    (broadcast active).2 = active.filter (fun c => !c.sendFails) ∧
    (broadcast active).1 = active.filter (fun c => !c.sendFails) := by
  unfold broadcast
  by_cases h : active = []
  · subst h; simp
  · rw [if_neg h]
    have hfc : active.filter (fun c => c.connected && !c.sendFails)
        = active.filter (fun c => !c.sendFails) :=
      List.filter_congr (fun c hc => by rw [hconn c hc]; simp)
    have hff : active.filter (fun c => c.connected && c.sendFails)
        = active.filter (fun c => c.sendFails) :=
      List.filter_congr (fun c hc => by rw [hconn c hc]; simp)
    constructor
    · rw [broadcast_loop_delivered, hfc]
    · rw [broadcast_loop_active, hff,
        foldl_erase_filter (fun c => c.sendFails) active hnd]

/-- Witness for C8: of three distinct connected channels with the middle
one failing, the two healthy ones receive the message and only the
failing one is dropped from the active set. -/
theorem broadcast_isolates_failures_witness :
    (broadcast [⟨1, true, false⟩, ⟨2, true, true⟩, ⟨3, true, false⟩]).2
      = [⟨1, true, false⟩, ⟨3, true, false⟩] ∧
    (broadcast [⟨1, true, false⟩, ⟨2, true, true⟩, ⟨3, true, false⟩]).1
      = [⟨1, true, false⟩, ⟨3, true, false⟩] := by
  have h := broadcast_isolates_failures
    [⟨1, true, false⟩, ⟨2, true, true⟩, ⟨3, true, false⟩]
    (by decide) (by decide)
  exact ⟨by rw [h.1]; rfl, by rw [h.2]; rfl⟩

/-- A successful grab is passed through unchanged by either backend's
grab step. -/
theorem grabStep_ok (backend : Backend) (env : CaptureEnv) (f : Frame)
    (hg : env.grab = .ok f) : grabStep backend env = .ok f := by
  cases backend <;> simp [grabStep, hg]

/-- Claim C9: In memory-persistence mode a successful capture stores the
image only in the in-memory cache: the capture succeeds and
`get_image_resource` can serve its bytes, yet `GET /image/{filename}`
returns not-found for that very filename, because the route consults
only the capture directory, which the memory-mode capture never
touches. -/
theorem memory_mode_image_route_misses (s : ServiceState) (backend : Backend)
    (env : CaptureEnv) (sample_no : String) (submission_no : Option String)
    (rw rh : Option Nat) (f : Frame)
    (h1 : s.is_initialized = true) (h2 : s.camera ≠ none)
    (h3 : s.is_capturing = false) (hp : s.persist_images = false)
    (hlim : 1 ≤ s.in_memory_limit)
    (hg : env.grab = .ok f) (hpe : env.persist_exn = none)
    (henc : env.encode_ok = true)
    (hdisk : ∀ d ∈ s.diskFiles,
      d.1 ≠ makeFilename sample_no submission_no env.ts_str)
    (hcache : ∀ p ∈ s.image_cache,
      p.1 ≠ makeFilename sample_no submission_no env.ts_str) :
    (capture_image s backend env sample_no submission_no rw rh).1.success
      = true ∧
    get_captured_image (capture_image s backend env sample_no submission_no rw rh).2
      (makeFilename sample_no submission_no env.ts_str) = .notFound ∧
    (get_image_resource (capture_image s backend env sample_no submission_no rw rh).2
      (makeFilename sample_no submission_no env.ts_str)).1
      = some (.memory env.enc_bytes) := by
  have hpre : ¬(s.is_initialized = false ∨ s.camera = none) := by
    rintro (h | h)
    · rw [h1] at h; cases h
    · exact h2 h
  have hcap : ¬(s.is_capturing = true) := by rw [h3]; simp
  have hnp : ¬(s.persist_images = true) := by rw [hp]; simp
  have hres : capture_image s backend env sample_no submission_no rw rh
      = (⟨true, some
            { filename := makeFilename sample_no submission_no env.ts_str
              file_path := makeFilename sample_no submission_no env.ts_str
              file_size := env.enc_size
              width := (captureResizeFrame f rw rh env.resize_exn).width
              height := (captureResizeFrame f rw rh env.resize_exn).height
              format := "JPEG"
              captured_at := env.timestamp }, none⟩,
         { s with
           is_capturing := false
           image_cache := cache_insert s.image_cache
             (makeFilename sample_no submission_no env.ts_str)
             { bytes := env.enc_bytes
               size := env.enc_size
               width := (captureResizeFrame f rw rh env.resize_exn).width
               height := (captureResizeFrame f rw rh env.resize_exn).height
               captured_at := env.timestamp }
             s.in_memory_limit
           capture_stats := stats_on_success s.capture_stats env.elapsed
           last_capture_time := some env.timestamp }) := by
    unfold capture_image
    rw [if_neg hpre, if_neg hcap]
    dsimp only
    unfold capture_body
    rw [grabStep_ok backend env f hg]
    dsimp only
    rw [hpe]
    dsimp only
    rw [if_neg hnp, if_pos henc]
  rw [hres]
  refine ⟨rfl, ?_, ?_⟩
  · unfold get_captured_image
    dsimp only
    rw [if_neg]
    intro hany
    rcases List.any_eq_true.mp hany with ⟨d, hd, hdk⟩
    exact hdisk d hd (by simpa using hdk)
  · unfold get_image_resource
    dsimp only
    rw [if_neg hnp]
    have hins : cache_insert s.image_cache
        (makeFilename sample_no submission_no env.ts_str)
        { bytes := env.enc_bytes
          size := env.enc_size
          width := (captureResizeFrame f rw rh env.resize_exn).width
          height := (captureResizeFrame f rw rh env.resize_exn).height
          captured_at := env.timestamp }
        s.in_memory_limit
        = s.image_cache.drop (s.image_cache.length + 1 - s.in_memory_limit)
          ++ [(makeFilename sample_no submission_no env.ts_str,
              { bytes := env.enc_bytes
                size := env.enc_size
                width := (captureResizeFrame f rw rh env.resize_exn).width
                height := (captureResizeFrame f rw rh env.resize_exn).height
                captured_at := env.timestamp })] := by
      unfold cache_insert
      rw [od_set_move_eq, od_trim_eq_drop]
      have hfe : s.image_cache.filter
          (fun p => p.1 != makeFilename sample_no submission_no env.ts_str)
          = s.image_cache :=
        List.filter_eq_self.mpr (fun p hps => by simpa using hcache p hps)
      rw [hfe]
      rw [List.drop_append_of_le_length (by simp; omega)]
      simp
    rw [hins, List.find?_append]
    have hdropnone : (s.image_cache.drop
        (s.image_cache.length + 1 - s.in_memory_limit)).find?
        (fun p => p.1 == makeFilename sample_no submission_no env.ts_str)
        = none := by
      apply List.find?_eq_none.mpr
      intro p hps hpk
      exact hcache p (List.mem_of_mem_drop hps) (by simpa using hpk)
    rw [hdropnone, Option.none_or]
    simp

/-- Witness for C9 at a concrete ready memory-mode service and an
all-success environment. -/
theorem memory_mode_image_route_misses_witness :
    get_captured_image (capture_image readyMemState .opencv happyEnv "S1" none
        none none).2 "capture_S1_20260101_000000.jpg" = .notFound ∧
    (get_image_resource (capture_image readyMemState .opencv happyEnv "S1" none
        none none).2 "capture_S1_20260101_000000.jpg").1
      = some (.memory 7) := by
  have h := memory_mode_image_route_misses readyMemState .opencv happyEnv "S1"
    none none none ⟨0, 480, 640⟩ rfl (by decide) rfl rfl (by decide) rfl rfl rfl
    (by intro d hd; cases hd) (by intro p hp; cases hp)
  exact ⟨h.2.1, h.2.2⟩

/-- Claim C10: `get_image_resource` never mutates the service: the state
it returns is the input state, so in memory mode a retrieval does not
refresh the retrieved key's recency — after any number of retrievals,
inserting a fresh key into a full cache still evicts the front entry
determined solely by insertion order. -/
theorem get_image_resource_pure (s : ServiceState) (fname k : String)
    (v : CacheEntry)
    (hfull : s.image_cache.length = s.in_memory_limit)
    (hfresh : ∀ p ∈ s.image_cache, p.1 ≠ k)
    (hlim : 1 ≤ s.in_memory_limit) :
    (get_image_resource s fname).2 = s ∧
    cache_insert ((get_image_resource s fname).2).image_cache k v
        s.in_memory_limit
      = s.image_cache.tail ++ [(k, v)] := by
  have hid : (get_image_resource s fname).2 = s := by
    unfold get_image_resource
    split_ifs
    · rfl
    · rfl
    · cases s.image_cache.find? (fun p => p.1 == fname) <;> rfl
  refine ⟨hid, ?_⟩
  rw [hid]
  exact ((cache_insert_lru s.image_cache k v s.in_memory_limit hlim).2.2
    hfresh).2 hfull

/-- A full one-slot memory-mode cache holding one entry keyed `a`. -/
def oneSlotState : ServiceState :=
  { readyMemState with in_memory_limit := 1, image_cache := [("a", entryA)] }

/-- Witness for C10: retrieving the only entry of a full one-slot cache
and then inserting a fresh key still evicts that entry. -/
theorem get_image_resource_pure_witness :
    (get_image_resource oneSlotState "a").2 = oneSlotState ∧
    cache_insert ((get_image_resource oneSlotState "a").2).image_cache
        "b" entryB oneSlotState.in_memory_limit
      = [("b", entryB)] := by
  have h := get_image_resource_pure oneSlotState "a" "b" entryB rfl
    (by decide) (by decide)
  exact ⟨h.1, by rw [h.2]; rfl⟩

end VisionCapture
